import Mathlib

/-!
Shallow embedding of the single-variable expression engine of the
kalkulusvisual repository: the lexer, the recursive-descent evaluator
(client/src/lib/mathParser.ts) and the numerical-calculus layer built on it
(MathCalculations: derivative, Simpson integral, Riemann sum, limit,
tangent and normal lines).

Modelling conventions.

* JavaScript numbers are modelled by `JNum`: either a finite value, carried
  exactly as a rational (`JNum.fin q`), or `JNum.nonfin`, which stands for any
  non-finite double (NaN, +Infinity or -Infinity).  The model is idealized:
  finite arithmetic is exact (no rounding, no overflow), and the three
  non-finite doubles are collapsed into the single constructor `nonfin`.
  Arithmetic involving a non-finite operand is modelled as `nonfin`
  (the rare IEEE cases where such an operation is finite again, e.g.
  `1/Infinity = 0` or `Math.exp(-Infinity) = 0`, are outside every code path
  the claims touch and are collapsed to `nonfin` as well).
* `Math.pow` on finite arguments is `jpowQ`: exact integer powers when the
  exponent is an integer (with the IEEE rule that `0` raised to a negative
  power is infinite), and `nonfin` when the exponent is not an integer (the
  true value is then irrational or complex, hence not representable as a
  rational; this is the one place where the idealized model departs from a
  finite double result such as `4^0.5`).
* The transcendental library functions `Math.sin`, `Math.cos`, `Math.tan`,
  `Math.log`, `Math.log10`, `Math.sqrt`, `Math.exp` and the irrational
  constants `Math.E`, `Math.PI` have no exact rational meaning; they are a
  parameter `MathFuns` of the whole development, and every theorem is proved
  for an arbitrary interpretation.  `defaultFuns` is one concrete
  interpretation, used only to evaluate witnesses on inputs whose formulas
  use none of these functions.
* Thrown JavaScript exceptions are modelled with `Except String`; a
  `try/catch` becomes a `match` on the `Except` value.
-/

/-- The finite/non-finite split of a JavaScript number: `fin q` is the exact
finite value `q`, `nonfin` collapses NaN, +Infinity and -Infinity. -/
inductive JNum where
  | fin : ℚ → JNum
  | nonfin : JNum
deriving DecidableEq

namespace JNum

/-- JavaScript `isFinite`. -/
def isFin : JNum → Bool
  | fin _ => true
  | nonfin => false

/-- The finite payload, when there is one. -/
def finPart : JNum → Option ℚ
  | fin q => some q
  | nonfin => none

end JNum

/-- JavaScript `+` on numbers (non-finite operands collapse to `nonfin`). -/
def jadd : JNum → JNum → JNum
  | JNum.fin a, JNum.fin b => JNum.fin (a + b)
  | _, _ => JNum.nonfin

/-- JavaScript binary `-`. -/
def jsub : JNum → JNum → JNum
  | JNum.fin a, JNum.fin b => JNum.fin (a - b)
  | _, _ => JNum.nonfin

/-- JavaScript `*`. -/
def jmul : JNum → JNum → JNum
  | JNum.fin a, JNum.fin b => JNum.fin (a * b)
  | _, _ => JNum.nonfin

/-- Raw JavaScript `/` (no zero check: a finite value divided by zero is
non-finite, as in IEEE). -/
def jdiv : JNum → JNum → JNum
  | JNum.fin a, JNum.fin b => if b = 0 then JNum.nonfin else JNum.fin (a / b)
  | _, _ => JNum.nonfin

/-- JavaScript unary `-`. -/
def jneg : JNum → JNum
  | JNum.fin a => JNum.fin (-a)
  | JNum.nonfin => JNum.nonfin

/-- JavaScript `Math.abs`. -/
def jabs : JNum → JNum
  | JNum.fin a => JNum.fin |a|
  | JNum.nonfin => JNum.nonfin

/-- JavaScript `Math.min` (only used as `Math.min(0, h)`; a non-finite
argument is collapsed to `nonfin`). -/
def jmin : JNum → JNum → JNum
  | JNum.fin a, JNum.fin b => JNum.fin (min a b)
  | _, _ => JNum.nonfin

/-- `x >= 0` on a JavaScript number: false for NaN; the collapsed `nonfin`
is modelled as false. -/
def jge0 : JNum → Bool
  | JNum.fin a => decide (0 ≤ a)
  | JNum.nonfin => false

/-- `Math.pow` on two finite doubles, idealized over the rationals: exact
for integer exponents (`0` to a negative power is infinite, per IEEE), and
`nonfin` for non-integer exponents (the exact value is irrational or
complex, hence not a rational). -/
def jpowQ (a b : ℚ) : JNum :=
  if b.den = 1 then
    if a = 0 ∧ b.num < 0 then JNum.nonfin
    else JNum.fin (a ^ b.num)
  else JNum.nonfin

/-- `Math.pow` lifted to `JNum` (non-finite operands collapse to `nonfin`). -/
def jpow : JNum → JNum → JNum
  | JNum.fin a, JNum.fin b => jpowQ a b
  | _, _ => JNum.nonfin

/-- Interpretation of the transcendental `Math` library functions and the
irrational constants.  Each function takes the finite argument (a non-finite
argument propagates as `nonfin` before these are consulted) and may return
any JavaScript number. -/
structure MathFuns where
  sin : ℚ → JNum
  cos : ℚ → JNum
  tan : ℚ → JNum
  log : ℚ → JNum
  log10 : ℚ → JNum
  sqrt : ℚ → JNum
  exp : ℚ → JNum
  E : ℚ
  PI : ℚ

/-- An arbitrary concrete interpretation, used to evaluate witnesses whose
formulas involve none of the transcendental functions or constants. -/
def defaultFuns : MathFuns where
  sin := fun _ => JNum.nonfin
  cos := fun _ => JNum.nonfin
  tan := fun _ => JNum.nonfin
  log := fun _ => JNum.nonfin
  log10 := fun _ => JNum.nonfin
  sqrt := fun _ => JNum.nonfin
  exp := fun _ => JNum.nonfin
  E := 0
  PI := 0

/-- Numeric value of a list of decimal digit characters. -/
def digitsVal (l : List Char) : ℕ :=
  l.foldl (fun a c => a * 10 + (c.toNat - 48)) 0

/-- JavaScript `parseFloat`, restricted to the shapes a NUMBER token can
carry (runs of digits and dots): the longest prefix of the form
`digits [ '.' digits ]` is read; if that prefix holds no digit at all the
result is NaN. -/
def parseFloatJ (s : String) : JNum :=
  let intDigits := s.data.takeWhile Char.isDigit
  let rest := s.data.dropWhile Char.isDigit
  let fracDigits :=
    match rest with
    | '.' :: r => r.takeWhile Char.isDigit
    | _ => []
  if intDigits = [] ∧ fracDigits = [] then JNum.nonfin
  else JNum.fin ((digitsVal intDigits : ℚ) +
    (digitsVal fracDigits : ℚ) / (10 : ℚ) ^ fracDigits.length)

/-- Two-digit zero padding for `toFixed(2)`. -/
def pad2 (n : ℕ) : String :=
  if n < 10 then "0" ++ toString n else toString n

/-- JavaScript `Number.prototype.toFixed(2)` on a finite double, idealized:
sign first, then the magnitude rounded to the closest multiple of 1/100,
ties rounded up. -/
def toFixed2Q (q : ℚ) : String :=
  let sign := if q < 0 then "-" else ""
  let m : ℕ := (⌊|q| * 100 + 1 / 2⌋).toNat
  sign ++ toString (m / 100) ++ "." ++ pad2 (m % 100)

/-- `toFixed(2)` on a JavaScript number.  The collapsed `nonfin` is rendered
as NaN renders (the claims never reach this branch). -/
def jtoFixed2 : JNum → String
  | JNum.fin q => toFixed2Q q
  | JNum.nonfin => "NaN"

deriving instance DecidableEq for Except

/-- Token kinds of the lexer (the `TokenType` string constants of the
source). -/
inductive TokType where
  | NUMBER | VARIABLE | CONSTANT | OPERATOR | FUNCTION | LPAREN | RPAREN | EOF
deriving DecidableEq

/-- A lexer token: kind, raw text and source position. -/
structure Token where
  type : TokType
  value : String
  pos : ℕ
deriving DecidableEq

namespace MathParser

/-- The allow-list `MathParser.FUNCTIONS`. -/
def FUNCTIONS : List String := ["sin", "cos", "tan", "ln", "log", "sqrt", "abs", "exp"]

/-- The allow-list `MathParser.CONSTANTS`. -/
def CONSTANTS : List String := ["e", "pi"]

/-- The operator characters `MathParser.OPERATORS`. -/
def OPERATORS : List Char := ['+', '-', '*', '/', '^']

/-- A lexer character that may extend a number: a digit or a decimal
point. -/
def isNumChar (c : Char) : Bool := c.isDigit || c = '.'

/-- The scanning loop of `MathParser.tokenize`, one step per token; `fuel`
bounds the recursion (each step consumes at least one character, so
`chars.length` steps always suffice). -/
def tokenizeLoop : ℕ → List Char → ℕ → List Token → Except String (List Token)
  | _, [], i, acc => .ok (acc ++ [⟨TokType.EOF, "", i⟩])
  | 0, _ :: _, _, _ => .error ("tokenizer step limit exceeded")
  | fuel + 1, c :: cs, i, acc =>
    if isNumChar c then
      -- Numbers (including decimals): a maximal run of digits and dots
      let run := (c :: cs).takeWhile isNumChar
      let numStr := String.mk run
      if numStr = "." then
        .error ("Invalid number format at position " ++ toString (i + run.length))
      else
        tokenizeLoop fuel ((c :: cs).dropWhile isNumChar) (i + run.length)
          (acc ++ [⟨TokType.NUMBER, numStr, i⟩])
    else if c.isAlpha then
      -- Variables and functions/constants: a maximal run of letters
      let run := (c :: cs).takeWhile Char.isAlpha
      let identifier := String.mk run
      let next := (c :: cs).dropWhile Char.isAlpha
      if identifier = "x" then
        tokenizeLoop fuel next (i + run.length) (acc ++ [⟨TokType.VARIABLE, identifier, i⟩])
      else if identifier ∈ FUNCTIONS then
        tokenizeLoop fuel next (i + run.length) (acc ++ [⟨TokType.FUNCTION, identifier, i⟩])
      else if identifier ∈ CONSTANTS then
        tokenizeLoop fuel next (i + run.length) (acc ++ [⟨TokType.CONSTANT, identifier, i⟩])
      else
        .error ("Unknown identifier " ++ identifier ++ " at position " ++ toString i)
    else if c ∈ OPERATORS then
      tokenizeLoop fuel cs (i + 1) (acc ++ [⟨TokType.OPERATOR, String.mk [c], i⟩])
    else if c = '(' then
      tokenizeLoop fuel cs (i + 1) (acc ++ [⟨TokType.LPAREN, String.mk [c], i⟩])
    else if c = ')' then
      tokenizeLoop fuel cs (i + 1) (acc ++ [⟨TokType.RPAREN, String.mk [c], i⟩])
    else
      .error ("Unexpected character " ++ String.mk [c] ++ " at position " ++ toString i)

/-- `MathParser.tokenize`: strips whitespace, then scans the remaining
characters into tokens, ending the stream with an EOF token. -/
def tokenize (expression : String) : Except String (List Token) :=
  let expr := expression.data.filter (fun c => !c.isWhitespace)
  tokenizeLoop expr.length expr 0 []

end MathParser

namespace ExpressionParser

/-- The fixed data of one `ExpressionParser` instance: the token list, the
bound value of the variable, and the interpretation of the `Math` library.
The mutable `current` index is threaded explicitly. -/
structure Ctx where
  tokens : List Token
  x : ℚ
  MF : MathFuns

/-- `getCurrentToken()`: the token at the current index (the EOF sentinel
closes every stream produced by `tokenize`, so the default is unreachable
on such streams). -/
def getCurrentToken (ctx : Ctx) (cur : ℕ) : Token :=
  ctx.tokens.getD cur ⟨TokType.EOF, "", 0⟩

/-- `isAtEnd()`. -/
def isAtEnd (ctx : Ctx) (cur : ℕ) : Bool :=
  (getCurrentToken ctx cur).type = TokType.EOF

/-- `check(type)`. -/
def check (ctx : Ctx) (cur : ℕ) (t : TokType) : Bool :=
  if isAtEnd ctx cur then false else (getCurrentToken ctx cur).type = t

/-- `match(type)`: whether the current token matched, and the index after
the optional `advance()`. -/
def matchTok (ctx : Ctx) (cur : ℕ) (t : TokType) : Bool × ℕ :=
  if check ctx cur t then (true, cur + 1) else (false, cur)

/-- Apply a `Math` library function to an argument: a non-finite argument
propagates as non-finite. -/
def applyFun (f : ℚ → JNum) : JNum → JNum
  | JNum.fin q => f q
  | JNum.nonfin => JNum.nonfin

/-- `argument <= 0` on a JavaScript number (false on NaN; the collapsed
`nonfin` is modelled as false, so non-finite arguments skip the domain
checks, as they do in the source). -/
def jle0 : JNum → Bool
  | JNum.fin q => decide (q ≤ 0)
  | JNum.nonfin => false

/-- `argument < 0` on a JavaScript number (same conventions as `jle0`). -/
def jlt0 : JNum → Bool
  | JNum.fin q => decide (q < 0)
  | JNum.nonfin => false

/-- `evaluateFunction(functionName, argument)`: dispatch over the fixed
allow-list, with the domain checks of the source. -/
def evaluateFunction (MF : MathFuns) (functionName : String) (argument : JNum) :
    Except String JNum :=
  if functionName = "sin" then .ok (applyFun MF.sin argument)
  else if functionName = "cos" then .ok (applyFun MF.cos argument)
  else if functionName = "tan" then .ok (applyFun MF.tan argument)
  else if functionName = "ln" then
    if jle0 argument then .error ("Natural logarithm of non-positive number")
    else .ok (applyFun MF.log argument)
  else if functionName = "log" then
    if jle0 argument then .error ("Logarithm of non-positive number")
    else .ok (applyFun MF.log10 argument)
  else if functionName = "sqrt" then
    if jlt0 argument then .error ("Square root of negative number")
    else .ok (applyFun MF.sqrt argument)
  else if functionName = "abs" then .ok (jabs argument)
  else if functionName = "exp" then .ok (applyFun MF.exp argument)
  else .error ("Unknown function " ++ functionName)

mutual

/-- `parseExpression()`. -/
def parseExpression (ctx : Ctx) : ℕ → ℕ → Except String (JNum × ℕ)
  | 0, _ => .error ("parser step limit exceeded")
  | fuel + 1, cur => parseAddition ctx fuel cur
termination_by structural fuel _ => fuel

/-- `parseAddition()`: the initial operand, then the while loop. -/
def parseAddition (ctx : Ctx) : ℕ → ℕ → Except String (JNum × ℕ)
  | 0, _ => .error ("parser step limit exceeded")
  | fuel + 1, cur =>
    match parseMultiplication ctx fuel cur with
    | .error e => .error e
    | .ok (expr, cur1) => addLoop ctx fuel expr cur1
termination_by structural fuel _ => fuel

/-- The `while (this.match(OPERATOR))` loop of `parseAddition`. -/
def addLoop (ctx : Ctx) : ℕ → JNum → ℕ → Except String (JNum × ℕ)
  | 0, _, _ => .error ("parser step limit exceeded")
  | fuel + 1, expr, cur =>
    match matchTok ctx cur TokType.OPERATOR with
    | (true, cur1) =>
      let operator := (getCurrentToken ctx (cur1 - 1)).value
      if operator = "+" ∨ operator = "-" then
        match parseMultiplication ctx fuel cur1 with
        | .error e => .error e
        | .ok (right, cur2) =>
          addLoop ctx fuel (if operator = "+" then jadd expr right else jsub expr right) cur2
      else
        -- Put the token back
        .ok (expr, cur1 - 1)
    | (false, cur1) => .ok (expr, cur1)
termination_by structural fuel _ _ => fuel

/-- `parseMultiplication()`: the initial operand, then the while loop. -/
def parseMultiplication (ctx : Ctx) : ℕ → ℕ → Except String (JNum × ℕ)
  | 0, _ => .error ("parser step limit exceeded")
  | fuel + 1, cur =>
    match parseExponentiation ctx fuel cur with
    | .error e => .error e
    | .ok (expr, cur1) => mulLoop ctx fuel expr cur1
termination_by structural fuel _ => fuel

/-- The `while (this.match(OPERATOR))` loop of `parseMultiplication`,
including the division-by-exactly-zero check that precedes the division. -/
def mulLoop (ctx : Ctx) : ℕ → JNum → ℕ → Except String (JNum × ℕ)
  | 0, _, _ => .error ("parser step limit exceeded")
  | fuel + 1, expr, cur =>
    match matchTok ctx cur TokType.OPERATOR with
    | (true, cur1) =>
      let operator := (getCurrentToken ctx (cur1 - 1)).value
      if operator = "*" ∨ operator = "/" then
        match parseExponentiation ctx fuel cur1 with
        | .error e => .error e
        | .ok (right, cur2) =>
          if operator = "/" ∧ right = JNum.fin 0 then .error ("Division by zero")
          else
            mulLoop ctx fuel (if operator = "*" then jmul expr right else jdiv expr right) cur2
      else
        -- Put the token back
        .ok (expr, cur1 - 1)
    | (false, cur1) => .ok (expr, cur1)
termination_by structural fuel _ _ => fuel

/-- `parseExponentiation()`: right-associative via the recursive call on the
right operand (an `if`, not a loop, in the source). -/
def parseExponentiation (ctx : Ctx) : ℕ → ℕ → Except String (JNum × ℕ)
  | 0, _ => .error ("parser step limit exceeded")
  | fuel + 1, cur =>
    match parseUnary ctx fuel cur with
    | .error e => .error e
    | .ok (expr, cur1) =>
      match matchTok ctx cur1 TokType.OPERATOR with
      | (true, cur2) =>
        let operator := (getCurrentToken ctx (cur2 - 1)).value
        if operator = "^" then
          match parseExponentiation ctx fuel cur2 with
          | .error e => .error e
          | .ok (right, cur3) => .ok (jpow expr right, cur3)
        else
          -- Put the token back
          .ok (expr, cur2 - 1)
      | (false, cur2) => .ok (expr, cur2)
termination_by structural fuel _ => fuel

/-- `parseUnary()`. -/
def parseUnary (ctx : Ctx) : ℕ → ℕ → Except String (JNum × ℕ)
  | 0, _ => .error ("parser step limit exceeded")
  | fuel + 1, cur =>
    match matchTok ctx cur TokType.OPERATOR with
    | (true, cur1) =>
      let operator := (getCurrentToken ctx (cur1 - 1)).value
      if operator = "-" then
        match parseUnary ctx fuel cur1 with
        | .error e => .error e
        | .ok (v, cur2) => .ok (jneg v, cur2)
      else if operator = "+" then
        parseUnary ctx fuel cur1
      else .error ("Unexpected unary operator " ++ operator)
    | (false, _) => parsePrimary ctx fuel cur
termination_by structural fuel _ => fuel

/-- `parsePrimary()`: numbers, the variable, constants, function calls,
parenthesized expressions, and the two error tails of the source. -/
def parsePrimary (ctx : Ctx) : ℕ → ℕ → Except String (JNum × ℕ)
  | 0, _ => .error ("parser step limit exceeded")
  | fuel + 1, cur =>
    match matchTok ctx cur TokType.NUMBER with
    | (true, cur1) => .ok (parseFloatJ (getCurrentToken ctx (cur1 - 1)).value, cur1)
    | (false, _) =>
      match matchTok ctx cur TokType.VARIABLE with
      | (true, cur1) => .ok (JNum.fin ctx.x, cur1)
      | (false, _) =>
        match matchTok ctx cur TokType.CONSTANT with
        | (true, cur1) =>
          let constant := (getCurrentToken ctx (cur1 - 1)).value
          if constant = "e" then .ok (JNum.fin ctx.MF.E, cur1)
          else if constant = "pi" then .ok (JNum.fin ctx.MF.PI, cur1)
          else .error ("Unknown constant " ++ constant)
        | (false, _) =>
          match matchTok ctx cur TokType.FUNCTION with
          | (true, cur1) =>
            let functionName := (getCurrentToken ctx (cur1 - 1)).value
            match matchTok ctx cur1 TokType.LPAREN with
            | (false, _) => .error ("Expected ( after function " ++ functionName)
            | (true, cur2) =>
              match parseExpression ctx fuel cur2 with
              | .error e => .error e
              | .ok (argument, cur3) =>
                match matchTok ctx cur3 TokType.RPAREN with
                | (false, _) => .error ("Expected ) after function argument")
                | (true, cur4) =>
                  match evaluateFunction ctx.MF functionName argument with
                  | .error e => .error e
                  | .ok v => .ok (v, cur4)
          | (false, _) =>
            match matchTok ctx cur TokType.LPAREN with
            | (true, cur1) =>
              match parseExpression ctx fuel cur1 with
              | .error e => .error e
              | .ok (v, cur2) =>
                match matchTok ctx cur2 TokType.RPAREN with
                | (false, _) => .error ("Expected ) after expression")
                | (true, cur3) => .ok (v, cur3)
            | (false, _) =>
              if check ctx cur TokType.NUMBER || check ctx cur TokType.VARIABLE then
                .error ("Unexpected token " ++ (getCurrentToken ctx cur).value)
              else
                .error ("Unexpected token " ++ (getCurrentToken ctx cur).value ++
                  " at position " ++ toString (getCurrentToken ctx cur).pos)
termination_by structural fuel _ => fuel

end

end ExpressionParser

namespace MathParser

/-- Fuel for the recursive-descent parser: every recursive call either
consumes a token first or moves down the fixed precedence chain, so this
bound is never reached on a token stream produced by `tokenize`. -/
def parserFuel (tokens : List Token) : ℕ := 8 * (tokens.length + 1)

/-- The body of `MathParser.evaluate` after tokenization: run the parser
from index 0 and require the stream to be fully consumed. -/
def runParse (MF : MathFuns) (tokens : List Token) (x : ℚ) : Except String JNum :=
  let ctx : ExpressionParser.Ctx := ⟨tokens, x, MF⟩
  match ExpressionParser.parseExpression ctx (parserFuel tokens) 0 with
  | .error e => .error e
  | .ok (result, cur) =>
    if ExpressionParser.isAtEnd ctx cur then .ok result
    else .error ("Unexpected token at position " ++
      toString (ExpressionParser.getCurrentToken ctx cur).pos)

/-- `MathParser.evaluate(expression, x)`: tokenize, parse, and wrap any
failure with the original expression text. -/
def evaluate (MF : MathFuns) (expression : String) (x : ℚ) : Except String JNum :=
  match (do
      let tokens ← tokenize expression
      runParse MF tokens x : Except String JNum) with
  | .ok v => .ok v
  | .error e => .error ("Invalid expression: " ++ expression ++ ". " ++ e)

end MathParser

namespace MathParser

/-- A plotted sample `{x, y}`. -/
structure Point where
  x : ℚ
  y : JNum
deriving DecidableEq

/-- `MathParser.generatePoints(expression, xMin, xMax, steps)`: evaluate at
`steps + 1` evenly spaced points, push the finite successes, skip the
rest. -/
def generatePoints (MF : MathFuns) (expression : String) (xMin xMax : ℚ)
    (steps : ℕ := 1000) : List Point :=
  let stepSize := (xMax - xMin) / (steps : ℚ)
  (List.range (steps + 1)).foldl (fun (points : List Point) (i : ℕ) =>
    let x := xMin + (i : ℚ) * stepSize
    match evaluate MF expression x with
    | .ok y => if y.isFin then points ++ [⟨x, y⟩] else points
    | .error _ => points) []

end MathParser

namespace MathCalculations

/-- `CalculationResult`. -/
structure CalculationResult where
  value : JNum
  error : Option String
deriving DecidableEq

/-- `MathCalculations.calculateDerivative(expression, x, h = 0.0001)`:
forward difference, with any thrown evaluation failure caught and turned
into the zero-valued error result. -/
def calculateDerivative (MF : MathFuns) (expression : String) (x : ℚ)
    (h : ℚ := 1 / 10000) : CalculationResult :=
  match MathParser.evaluate MF expression (x + h) with
  | .error _ => ⟨JNum.fin 0, some ("Unable to calculate derivative")⟩
  | .ok f_x_plus_h =>
    match MathParser.evaluate MF expression x with
    | .error _ => ⟨JNum.fin 0, some ("Unable to calculate derivative")⟩
    | .ok f_x => ⟨jdiv (jsub f_x_plus_h f_x) (JNum.fin h), none⟩

/-- `MathCalculations.calculateDerivativePoints`: samples the derivative
over a range, keeping only error-free finite values. -/
def calculateDerivativePoints (MF : MathFuns) (expression : String)
    (xMin xMax : ℚ) (steps : ℕ := 500) : List MathParser.Point :=
  let stepSize := (xMax - xMin) / (steps : ℚ)
  (List.range (steps + 1)).foldl (fun (points : List MathParser.Point) (i : ℕ) =>
    let x := xMin + (i : ℚ) * stepSize
    let result := calculateDerivative MF expression x
    if result.error = none ∧ result.value.isFin then points ++ [⟨x, result.value⟩]
    else points) []

/-- The interior-point loop of `calculateDefiniteIntegral`: for each index
`i`, weight 2 when `i` is even and 4 when `i` is odd, aborting on the first
evaluation failure (the surrounding try/catch). -/
def simpsonLoop (MF : MathFuns) (expression : String) (a h : ℚ) :
    List ℕ → JNum → Except String JNum
  | [], sum => .ok sum
  | i :: rest, sum =>
    match MathParser.evaluate MF expression (a + (i : ℚ) * h) with
    | .error e => .error e
    | .ok v =>
      let coefficient : ℚ := if i % 2 = 0 then 2 else 4
      simpsonLoop MF expression a h rest (jadd sum (jmul (JNum.fin coefficient) v))

/-- `MathCalculations.calculateDefiniteIntegral(expression, a, b, n = 1000)`
(composite Simpson rule): odd `n` is incremented, then
`(h/3) * (f(a) + f(b) + Σ weighted interior evaluations)`; any evaluation
failure degrades to the zero-valued error result. -/
def calculateDefiniteIntegral (MF : MathFuns) (expression : String) (a b : ℚ)
    (n : ℕ := 1000) : CalculationResult :=
  let nAdj := if n % 2 ≠ 0 then n + 1 else n
  let h : ℚ := (b - a) / (nAdj : ℚ)
  match (do
      let fa ← MathParser.evaluate MF expression a
      let fb ← MathParser.evaluate MF expression b
      let sum ← simpsonLoop MF expression a h (List.range' 1 (nAdj - 1)) (jadd fa fb)
      pure (jmul (JNum.fin (h / 3)) sum) : Except String JNum) with
  | .ok v => ⟨v, none⟩
  | .error _ => ⟨JNum.fin 0, some ("Unable to calculate integral")⟩

/-- One visualization rectangle of the Riemann sum. -/
structure RiemannRect where
  x : ℚ
  y : JNum
  width : ℚ
  height : JNum
deriving DecidableEq

/-- The `{value, rectangles}` result of `calculateRiemannSum`. -/
structure RiemannResult where
  value : JNum
  rectangles : List RiemannRect
deriving DecidableEq

/-- `MathCalculations.calculateRiemannSum(expression, a, b, n)` (midpoint
rule): per subinterval, evaluate at the midpoint, accumulate
`height * dx`, and emit a rectangle; subintervals whose evaluation throws
are skipped. -/
def calculateRiemannSum (MF : MathFuns) (expression : String) (a b : ℚ)
    (n : ℕ) : RiemannResult :=
  let dx : ℚ := (b - a) / (n : ℚ)
  let p := (List.range n).foldl (fun (acc : JNum × List RiemannRect) (i : ℕ) =>
    let x := a + (i : ℚ) * dx
    match MathParser.evaluate MF expression (x + dx / 2) with
    | .ok height =>
      (jadd acc.1 (jmul height (JNum.fin dx)),
       acc.2 ++ [⟨x, jmin (JNum.fin 0) height, dx, jabs height⟩])
    | .error _ => acc) (JNum.fin 0, [])
  ⟨p.1, p.2⟩

/-- The fixed step sequence of `calculateLimit`. -/
def limitSteps : List ℚ := [1 / 10, 1 / 100, 1 / 1000, 1 / 10000]

/-- The step loop of `calculateLimit`: for each step, both sides are
evaluated inside one try block — if either evaluation throws, neither
side's value for that step is pushed; finite results are pushed per
side. -/
def limitScan (MF : MathFuns) (expression : String) (a : ℚ)
    (steps : List ℚ) : List ℚ × List ℚ :=
  steps.foldl (fun (acc : List ℚ × List ℚ) step =>
    match MathParser.evaluate MF expression (a - step),
          MathParser.evaluate MF expression (a + step) with
    | .ok leftVal, .ok rightVal =>
      (acc.1 ++ leftVal.finPart.toList, acc.2 ++ rightVal.finPart.toList)
    | _, _ => acc) ([], [])

/-- The `{leftLimit, rightLimit, limit, exists}` result of
`calculateLimit`. -/
structure LimitResult where
  leftLimit : Option ℚ
  rightLimit : Option ℚ
  limit : Option ℚ
  exists' : Bool
deriving DecidableEq

/-- `MathCalculations.calculateLimit(expression, a, epsilon = 0.001)`:
left/right limits are the last pushed values of the scan, then the
decision policy of the source. -/
def calculateLimit (MF : MathFuns) (expression : String) (a : ℚ)
    (epsilon : ℚ := 1 / 1000) : LimitResult :=
  let scan := limitScan MF expression a limitSteps
  let leftLimit := scan.1.getLast?
  let rightLimit := scan.2.getLast?
  match leftLimit, rightLimit with
  | some l, some r =>
    if |l - r| < epsilon then ⟨leftLimit, rightLimit, some ((l + r) / 2), true⟩
    else ⟨leftLimit, rightLimit, none, false⟩
  | some l, none => ⟨leftLimit, rightLimit, some l, false⟩
  | none, some r => ⟨leftLimit, rightLimit, some r, false⟩
  | none, none => ⟨leftLimit, rightLimit, none, false⟩

/-- The result of `calculateTangentLine`. -/
structure TangentLineResult where
  slope : JNum
  yIntercept : JNum
  equation : String
  point : MathParser.Point
deriving DecidableEq

/-- `MathCalculations.calculateTangentLine(expression, x0)`: `y0 = f(x0)`,
slope from `calculateDerivative(...).value` (which cannot throw), the
cosmetic equation formatting of the source, and the all-zero sentinel when
the direct evaluation at `x0` throws. -/
def calculateTangentLine (MF : MathFuns) (expression : String) (x0 : ℚ) :
    TangentLineResult :=
  match MathParser.evaluate MF expression x0 with
  | .error _ => ⟨JNum.fin 0, JNum.fin 0, "y = 0", ⟨x0, JNum.fin 0⟩⟩
  | .ok y0 =>
    let slope := (calculateDerivative MF expression x0).value
    let yIntercept := jsub y0 (jmul slope (JNum.fin x0))
    let equation :=
      if slope = JNum.fin 0 then "y = " ++ jtoFixed2 y0
      else if slope = JNum.fin 1 then
        if jge0 yIntercept then "y = x + " ++ jtoFixed2 yIntercept
        else "y = x - " ++ jtoFixed2 (jabs yIntercept)
      else if slope = JNum.fin (-1) then
        if jge0 yIntercept then "y = -x + " ++ jtoFixed2 yIntercept
        else "y = -x - " ++ jtoFixed2 (jabs yIntercept)
      else
        let slopeStr := jtoFixed2 slope
        if jge0 yIntercept then "y = " ++ slopeStr ++ "x + " ++ jtoFixed2 yIntercept
        else "y = " ++ slopeStr ++ "x - " ++ jtoFixed2 (jabs yIntercept)
    ⟨slope, yIntercept, equation, ⟨x0, y0⟩⟩

/-- The result of `calculateNormalLine`. -/
structure NormalLineResult where
  slope : JNum
  yIntercept : JNum
  equation : String
deriving DecidableEq

/-- `MathCalculations.calculateNormalLine(expression, x0)`: slope
`-1 / tangentSlope` (`Infinity`, modelled `nonfin`, when the tangent slope
is exactly zero, giving the vertical line `x = x0`), and the all-zero
sentinel when the direct evaluation at `x0` throws. -/
def calculateNormalLine (MF : MathFuns) (expression : String) (x0 : ℚ) :
    NormalLineResult :=
  let tangent := calculateTangentLine MF expression x0
  let normalSlope :=
    if tangent.slope = JNum.fin 0 then JNum.nonfin
    else jdiv (JNum.fin (-1)) tangent.slope
  match MathParser.evaluate MF expression x0 with
  | .error _ => ⟨JNum.fin 0, JNum.fin 0, "y = 0"⟩
  | .ok y0 =>
    if !normalSlope.isFin then ⟨normalSlope, JNum.fin 0, "x = " ++ toFixed2Q x0⟩
    else
      let yIntercept := jsub y0 (jmul normalSlope (JNum.fin x0))
      let equation :=
        if jge0 yIntercept then
          "y = " ++ jtoFixed2 normalSlope ++ "x + " ++ jtoFixed2 yIntercept
        else
          "y = " ++ jtoFixed2 normalSlope ++ "x - " ++ jtoFixed2 (jabs yIntercept)
      ⟨normalSlope, yIntercept, equation⟩

end MathCalculations

/-!
Auxiliary definitions used by the theorem statements: explicit descriptions
of what the sampling and accumulation loops compute, to be proved equal to
the loop-based definitions above.
-/

/-- The sample `generatePoints` produces for index `i`: the evenly spaced
point `x = xMin + i * (xMax - xMin) / steps`, kept exactly when evaluation
succeeds with a finite value. -/
def sampleAt (MF : MathFuns) (expression : String) (xMin xMax : ℚ) (steps : ℕ)
    (i : ℕ) : Option MathParser.Point :=
  let x := xMin + (i : ℚ) * ((xMax - xMin) / (steps : ℚ))
  match MathParser.evaluate MF expression x with
  | .ok y => if y.isFin then some ⟨x, y⟩ else none
  | .error _ => none

/-- The left-side values `calculateLimit` keeps for a given step list: a
step contributes its left value when both of that step's evaluations
succeed and the left value is finite. -/
def keptLeftValues (MF : MathFuns) (expression : String) (a : ℚ)
    (steps : List ℚ) : List ℚ :=
  steps.filterMap (fun step =>
    match MathParser.evaluate MF expression (a - step),
          MathParser.evaluate MF expression (a + step) with
    | .ok leftVal, .ok _ => leftVal.finPart
    | _, _ => none)

/-- The right-side values `calculateLimit` keeps, mirror image of
`keptLeftValues`. -/
def keptRightValues (MF : MathFuns) (expression : String) (a : ℚ)
    (steps : List ℚ) : List ℚ :=
  steps.filterMap (fun step =>
    match MathParser.evaluate MF expression (a - step),
          MathParser.evaluate MF expression (a + step) with
    | .ok _, .ok rightVal => rightVal.finPart
    | _, _ => none)

/-- The weighted Simpson sum the claim describes: starting from the
endpoint contribution, add `w * g i` over the interior indices, with
weight 4 at odd `i` and 2 at even `i`. -/
def simpsonWeightedSum (g : ℕ → JNum) (endpoints : JNum) (l : List ℕ) : JNum :=
  l.foldl (fun sum i =>
    jadd sum (jmul (JNum.fin (if i % 2 = 0 then (2 : ℚ) else 4)) (g i))) endpoints

/-!  Helper lemmas about the accumulation loops. -/

theorem generatePoints_eq_filterMap (MF : MathFuns) (e : String) (xMin xMax : ℚ)
    (steps : ℕ) :
    MathParser.generatePoints MF e xMin xMax steps =
      (List.range (steps + 1)).filterMap (sampleAt MF e xMin xMax steps) := by
  have key : ∀ (l : List ℕ) (acc : List MathParser.Point),
      l.foldl (fun (points : List MathParser.Point) (i : ℕ) =>
        match MathParser.evaluate MF e (xMin + (i : ℚ) * ((xMax - xMin) / (steps : ℚ))) with
        | .ok y => if y.isFin then points ++ [⟨xMin + (i : ℚ) * ((xMax - xMin) / (steps : ℚ)), y⟩]
                   else points
        | .error _ => points) acc
      = acc ++ l.filterMap (sampleAt MF e xMin xMax steps) := by
    intro l
    induction l with
    | nil => intro acc; simp
    | cons i l ih =>
      intro acc
      simp only [List.foldl_cons, List.filterMap_cons]
      rw [ih]
      cases hev : MathParser.evaluate MF e (xMin + (i : ℚ) * ((xMax - xMin) / (steps : ℚ))) with
      | ok y =>
        by_cases hf : y.isFin
        · simp [sampleAt, hev, hf]
        · simp [sampleAt, hev, hf]
      | error msg => simp [sampleAt, hev]
  simpa [MathParser.generatePoints] using key (List.range (steps + 1)) []

theorem mem_derivativePoints_isFin (MF : MathFuns) (e : String) (xMin xMax : ℚ)
    (steps : ℕ) :
    ∀ p ∈ MathCalculations.calculateDerivativePoints MF e xMin xMax steps,
      p.y.isFin = true := by
  have key : ∀ (l : List ℕ) (acc : List MathParser.Point),
      (∀ p ∈ acc, p.y.isFin = true) →
      ∀ p ∈ l.foldl (fun (points : List MathParser.Point) (i : ℕ) =>
          if (MathCalculations.calculateDerivative MF e
                (xMin + (i : ℚ) * ((xMax - xMin) / (steps : ℚ)))).error = none ∧
             (MathCalculations.calculateDerivative MF e
                (xMin + (i : ℚ) * ((xMax - xMin) / (steps : ℚ)))).value.isFin then
            points ++ [⟨xMin + (i : ℚ) * ((xMax - xMin) / (steps : ℚ)),
              (MathCalculations.calculateDerivative MF e
                (xMin + (i : ℚ) * ((xMax - xMin) / (steps : ℚ)))).value⟩]
          else points) acc,
        p.y.isFin = true := by
    intro l
    induction l with
    | nil => intro acc hacc; simpa using hacc
    | cons i l ih =>
      intro acc hacc
      simp only [List.foldl_cons]
      apply ih
      intro p hp
      by_cases hc : (MathCalculations.calculateDerivative MF e
          (xMin + (i : ℚ) * ((xMax - xMin) / (steps : ℚ)))).error = none ∧
          (MathCalculations.calculateDerivative MF e
            (xMin + (i : ℚ) * ((xMax - xMin) / (steps : ℚ)))).value.isFin = true
      · rw [if_pos hc] at hp
        rcases List.mem_append.mp hp with hp | hp
        · exact hacc p hp
        · rw [List.mem_singleton.mp hp]; exact hc.2
      · rw [if_neg hc] at hp
        exact hacc p hp
  intro p hp
  exact key (List.range (steps + 1)) [] (by simp)
    p (by simpa [MathCalculations.calculateDerivativePoints] using hp)

theorem limitScan_eq (MF : MathFuns) (e : String) (a : ℚ) (steps : List ℚ) :
    MathCalculations.limitScan MF e a steps =
      (keptLeftValues MF e a steps, keptRightValues MF e a steps) := by
  have key : ∀ (l : List ℚ) (acc : List ℚ × List ℚ),
      l.foldl (fun (acc : List ℚ × List ℚ) step =>
        match MathParser.evaluate MF e (a - step), MathParser.evaluate MF e (a + step) with
        | .ok leftVal, .ok rightVal =>
          (acc.1 ++ leftVal.finPart.toList, acc.2 ++ rightVal.finPart.toList)
        | _, _ => acc) acc
      = (acc.1 ++ keptLeftValues MF e a l, acc.2 ++ keptRightValues MF e a l) := by
    intro l
    induction l with
    | nil => intro acc; simp [keptLeftValues, keptRightValues]
    | cons s l ih =>
      intro acc
      simp only [List.foldl_cons]
      cases hl : MathParser.evaluate MF e (a - s) with
      | ok leftVal =>
        cases hr : MathParser.evaluate MF e (a + s) with
        | ok rightVal =>
          rw [ih]
          cases leftVal <;> cases rightVal <;>
            simp [keptLeftValues, keptRightValues, hl, hr, JNum.finPart]
        | error msg =>
          rw [ih]
          simp [keptLeftValues, keptRightValues, hl, hr]
      | error msg =>
        rw [ih]
        simp [keptLeftValues, keptRightValues, hl]
  simpa [MathCalculations.limitScan] using key steps ([], [])

theorem simpsonLoop_ok (MF : MathFuns) (e : String) (a h : ℚ) (g : ℕ → JNum) :
    ∀ (l : List ℕ) (sum : JNum),
      (∀ i ∈ l, MathParser.evaluate MF e (a + (i : ℚ) * h) = .ok (g i)) →
      MathCalculations.simpsonLoop MF e a h l sum = .ok (simpsonWeightedSum g sum l) := by
  intro l
  induction l with
  | nil => intro sum _; simp [MathCalculations.simpsonLoop, simpsonWeightedSum]
  | cons i l ih =>
    intro sum hall
    have hi := hall i (by simp)
    simp only [MathCalculations.simpsonLoop, hi, simpsonWeightedSum, List.foldl_cons]
    exact ih _ (fun j hj => hall j (by simp [hj]))

/-!  Claim theorems. -/

unseal Rat.add Rat.mul Rat.sub Rat.inv in
/-- C1: exponentiation is right-associative in `evaluate`: for any number
tokens `a ^ b ^ c` the parser computes `a ^ (b ^ c)`, and in particular
`evaluate("2^3^2", 0) = 512`. -/
theorem evaluate_pow_right_assoc :
    (∀ (MF : MathFuns) (x : ℚ) (sa sb sc : String) (p1 p2 p3 p4 p5 p6 : ℕ),
      MathParser.runParse MF
        [⟨TokType.NUMBER, sa, p1⟩, ⟨TokType.OPERATOR, "^", p2⟩, ⟨TokType.NUMBER, sb, p3⟩,
         ⟨TokType.OPERATOR, "^", p4⟩, ⟨TokType.NUMBER, sc, p5⟩, ⟨TokType.EOF, "", p6⟩] x
        = .ok (jpow (parseFloatJ sa) (jpow (parseFloatJ sb) (parseFloatJ sc)))) ∧
    MathParser.evaluate defaultFuns "2^3^2" 0 = .ok (JNum.fin 512) := by
  constructor
  · intro MF x sa sb sc p1 p2 p3 p4 p5 p6
    rfl
  · decide

/-- Witness for C1 at the concrete token stream of `2^3^2`. -/
theorem evaluate_pow_right_assoc_witness :
    MathParser.runParse defaultFuns
      [⟨TokType.NUMBER, "2", 0⟩, ⟨TokType.OPERATOR, "^", 1⟩, ⟨TokType.NUMBER, "3", 2⟩,
       ⟨TokType.OPERATOR, "^", 3⟩, ⟨TokType.NUMBER, "2", 4⟩, ⟨TokType.EOF, "", 5⟩] 0
      = .ok (jpow (parseFloatJ "2") (jpow (parseFloatJ "3") (parseFloatJ "2"))) ∧
    MathParser.evaluate defaultFuns "2^3^2" 0 = .ok (JNum.fin 512) :=
  ⟨evaluate_pow_right_assoc.1 defaultFuns 0 "2" "3" "2" 0 1 2 3 4 5,
   evaluate_pow_right_assoc.2⟩

unseal Rat.add Rat.mul Rat.sub Rat.inv in
/-- C2: whenever the divisor subexpression evaluates to exactly zero, the
multiplication/division loop fails with the division-by-zero domain error
before performing the division; in particular `evaluate("1/x", 0)` fails
with that error. -/
theorem divide_by_zero_domain_error :
    (∀ (ctx : ExpressionParser.Ctx) (fuel : ℕ) (v : JNum) (st st2 pv : ℕ),
      ExpressionParser.getCurrentToken ctx st = ⟨TokType.OPERATOR, "/", pv⟩ →
      ExpressionParser.parseExponentiation ctx fuel (st + 1) = .ok (JNum.fin 0, st2) →
      ExpressionParser.mulLoop ctx (fuel + 1) v st = .error ("Division by zero")) ∧
    MathParser.evaluate defaultFuns "1/x" 0 =
      .error ("Invalid expression: 1/x. Division by zero") := by
  constructor
  · intro ctx fuel v st st2 pv htok hdiv
    simp [ExpressionParser.mulLoop, ExpressionParser.matchTok, ExpressionParser.check,
      ExpressionParser.isAtEnd, htok, hdiv, Nat.add_sub_cancel]
  · decide

/-- Witness for C2 on the token stream of `1/x` at `x = 0`. -/
theorem divide_by_zero_domain_error_witness :
    ExpressionParser.mulLoop
      ⟨[⟨TokType.NUMBER, "1", 0⟩, ⟨TokType.OPERATOR, "/", 1⟩, ⟨TokType.VARIABLE, "x", 2⟩,
        ⟨TokType.EOF, "", 3⟩], 0, defaultFuns⟩ 11 (JNum.fin 1) 1 =
      .error ("Division by zero") ∧
    MathParser.evaluate defaultFuns "1/x" 0 =
      .error ("Invalid expression: 1/x. Division by zero") :=
  ⟨divide_by_zero_domain_error.1 _ 10 (JNum.fin 1) 1 3 1 rfl rfl,
   divide_by_zero_domain_error.2⟩

/-- C3: for every formula, bounds and subdivision count, the Simpson
integral uses the evenized count and `h = (b-a)/n`, and when every
evaluation succeeds it returns `(h/3)` times the weighted sum: endpoints
weight 1, interior weight 4 at odd indices and 2 at even indices. -/
theorem simpson_integral_formula (MF : MathFuns) (e : String) (a b : ℚ) (n : ℕ)
    (va vb : JNum) (g : ℕ → JNum)
    (ha : MathParser.evaluate MF e a = .ok va)
    (hb : MathParser.evaluate MF e b = .ok vb)
    (hint : ∀ i ∈ List.range' 1 ((if n % 2 ≠ 0 then n + 1 else n) - 1),
      MathParser.evaluate MF e
        (a + (i : ℚ) * ((b - a) / (((if n % 2 ≠ 0 then n + 1 else n) : ℕ) : ℚ))) = .ok (g i)) :
    MathCalculations.calculateDefiniteIntegral MF e a b n =
      ⟨jmul (JNum.fin (((b - a) / (((if n % 2 ≠ 0 then n + 1 else n) : ℕ) : ℚ)) / 3))
        (simpsonWeightedSum g (jadd va vb)
          (List.range' 1 ((if n % 2 ≠ 0 then n + 1 else n) - 1))), none⟩ := by
  have hloop := simpsonLoop_ok MF e a
    ((b - a) / (((if n % 2 ≠ 0 then n + 1 else n) : ℕ) : ℚ)) g
    (List.range' 1 ((if n % 2 ≠ 0 then n + 1 else n) - 1)) (jadd va vb) hint
  simp only [MathCalculations.calculateDefiniteIntegral, ha, hb, hloop,
    bind, Except.bind, pure, Except.pure]

unseal Rat.add Rat.mul Rat.sub Rat.inv in
/-- Witness for C3: Simpson on `x` over `[0, 2]` with `n = 2` gives 2. -/
theorem simpson_integral_formula_witness :
    MathCalculations.calculateDefiniteIntegral defaultFuns "x" 0 2 2 =
      ⟨JNum.fin 2, none⟩ := by
  have h := simpson_integral_formula defaultFuns "x" 0 2 2 (JNum.fin 0) (JNum.fin 2)
    (fun i => JNum.fin i) (by decide) (by decide) (by decide)
  rw [h]
  decide

unseal Rat.add Rat.mul Rat.sub Rat.inv in
/-- C4 counterexample: for `1/(x-0.0001)` at `a = 0`, the left-side
evaluation at the last step `0.0001` succeeds with the finite value
`-5000`, yet `leftLimit` is the step-`0.001` value `-10000/11`: the right
side threw at step `0.0001` and that exception discarded the left side's
successful value of the same step. -/
theorem limit_left_value_discarded_cex :
    MathParser.evaluate defaultFuns "1/(x-0.0001)" (0 - 1 / 10000) =
      .ok (JNum.fin (-5000)) ∧
    (MathCalculations.calculateLimit defaultFuns "1/(x-0.0001)" 0).leftLimit =
      some (-10000 / 11) ∧
    (-10000 / 11 : ℚ) ≠ -5000 := by
  refine ⟨by decide, by decide, by decide⟩

/-- C4 (amended): for each step the two sides are evaluated inside a single
guarded block, so a step contributes to a side's list only when both of
that step's evaluations succeed (and that side's value is finite);
`leftLimit`/`rightLimit` are the last values so kept. -/
theorem limit_last_kept_values (MF : MathFuns) (e : String) (a ε : ℚ) :
    (MathCalculations.calculateLimit MF e a ε).leftLimit =
      (keptLeftValues MF e a MathCalculations.limitSteps).getLast? ∧
    (MathCalculations.calculateLimit MF e a ε).rightLimit =
      (keptRightValues MF e a MathCalculations.limitSteps).getLast? := by
  unfold MathCalculations.calculateLimit
  rw [limitScan_eq]
  rcases h1 : (keptLeftValues MF e a MathCalculations.limitSteps).getLast? with _ | l <;>
    rcases h2 : (keptRightValues MF e a MathCalculations.limitSteps).getLast? with _ | r <;>
      simp [h1, h2] <;> split_ifs <;> simp

unseal Rat.add Rat.mul Rat.sub Rat.inv in
/-- Witness for C4 (amended) on `x` at `a = 5`: all steps succeed, and the
limits are the step-`0.0001` samples. -/
theorem limit_last_kept_values_witness :
    (MathCalculations.calculateLimit defaultFuns "x" 5).leftLimit =
      some (49999 / 10000) ∧
    (MathCalculations.calculateLimit defaultFuns "x" 5).rightLimit =
      some (50001 / 10000) := by
  have h := limit_last_kept_values defaultFuns "x" 5 (1 / 1000)
  exact ⟨h.1.trans (by decide), h.2.trans (by decide)⟩

/-- C5: the decision policy of `calculateLimit`: both sides close together
give `exists = true` with the average; exactly one side gives that side's
value with `exists = false`; neither side gives all-null fields with
`exists = false`. -/
theorem limit_decision_policy (MF : MathFuns) (e : String) (a ε : ℚ) :
    (∀ l r, (MathCalculations.calculateLimit MF e a ε).leftLimit = some l →
      (MathCalculations.calculateLimit MF e a ε).rightLimit = some r →
      |l - r| < ε →
      (MathCalculations.calculateLimit MF e a ε).exists' = true ∧
      (MathCalculations.calculateLimit MF e a ε).limit = some ((l + r) / 2)) ∧
    (∀ l, (MathCalculations.calculateLimit MF e a ε).leftLimit = some l →
      (MathCalculations.calculateLimit MF e a ε).rightLimit = none →
      (MathCalculations.calculateLimit MF e a ε).limit = some l ∧
      (MathCalculations.calculateLimit MF e a ε).exists' = false) ∧
    (∀ r, (MathCalculations.calculateLimit MF e a ε).leftLimit = none →
      (MathCalculations.calculateLimit MF e a ε).rightLimit = some r →
      (MathCalculations.calculateLimit MF e a ε).limit = some r ∧
      (MathCalculations.calculateLimit MF e a ε).exists' = false) ∧
    ((MathCalculations.calculateLimit MF e a ε).leftLimit = none →
      (MathCalculations.calculateLimit MF e a ε).rightLimit = none →
      (MathCalculations.calculateLimit MF e a ε).limit = none ∧
      (MathCalculations.calculateLimit MF e a ε).exists' = false) := by
  unfold MathCalculations.calculateLimit
  rcases h1 : (MathCalculations.limitScan MF e a MathCalculations.limitSteps).1.getLast?
    with _ | l0 <;>
    rcases h2 : (MathCalculations.limitScan MF e a MathCalculations.limitSteps).2.getLast?
      with _ | r0 <;>
      simp only [h1, h2] <;>
        first
        | (refine ⟨?_, ?_, ?_, ?_⟩ <;> simp)
        | (split_ifs with hif <;> refine ⟨?_, ?_, ?_, ?_⟩ <;> simp [hif] <;>
            exact not_lt.mp hif)

unseal Rat.add Rat.mul Rat.sub Rat.inv in
/-- Witness for C5 on `x` at `a = 5`: both sides agree within epsilon, so
the limit exists and is the average 5. -/
theorem limit_decision_policy_witness :
    (MathCalculations.calculateLimit defaultFuns "x" 5).exists' = true ∧
    (MathCalculations.calculateLimit defaultFuns "x" 5).limit = some 5 := by
  have h := (limit_decision_policy defaultFuns "x" 5 (1 / 1000)).1
    (49999 / 10000) (50001 / 10000) (by decide) (by decide) (by decide)
  exact ⟨h.1, h.2.trans (by decide)⟩

unseal Rat.add Rat.mul Rat.sub Rat.inv in
/-- C6 counterexample: on a failing evaluation the error field is
`Unable to calculate derivative`, not `derivative unavailable` as the
claim's literal result states. -/
theorem derivative_error_message_cex :
    MathCalculations.calculateDerivative defaultFuns "1/x" 0 =
      ⟨JNum.fin 0, some ("Unable to calculate derivative")⟩ ∧
    MathCalculations.calculateDerivative defaultFuns "1/x" 0 ≠
      ⟨JNum.fin 0, some ("derivative unavailable")⟩ := by
  exact ⟨by decide, by decide⟩

/-- C6 (amended): `calculateDerivative` (default `h = 1e-4`) returns
`(f(x+h) - f(x)) / h` when both evaluations succeed, and on any evaluation
failure returns value 0 with error `Unable to calculate derivative` instead
of propagating the failure. -/
theorem derivative_forward_difference (MF : MathFuns) (e : String) (x h : ℚ) :
    (∀ v1 v0, MathParser.evaluate MF e (x + h) = .ok v1 →
      MathParser.evaluate MF e x = .ok v0 →
      MathCalculations.calculateDerivative MF e x h =
        ⟨jdiv (jsub v1 v0) (JNum.fin h), none⟩) ∧
    (∀ msg, MathParser.evaluate MF e (x + h) = .error msg →
      MathCalculations.calculateDerivative MF e x h =
        ⟨JNum.fin 0, some ("Unable to calculate derivative")⟩) ∧
    (∀ v1 msg, MathParser.evaluate MF e (x + h) = .ok v1 →
      MathParser.evaluate MF e x = .error msg →
      MathCalculations.calculateDerivative MF e x h =
        ⟨JNum.fin 0, some ("Unable to calculate derivative")⟩) := by
  refine ⟨?_, ?_, ?_⟩
  · intro v1 v0 h1 h0
    simp [MathCalculations.calculateDerivative, h1, h0]
  · intro msg h1
    simp [MathCalculations.calculateDerivative, h1]
  · intro v1 msg h1 h0
    simp [MathCalculations.calculateDerivative, h1, h0]

unseal Rat.add Rat.mul Rat.sub Rat.inv in
/-- Witness for C6 (amended): the forward difference of `x` at 0 is 1. -/
theorem derivative_forward_difference_witness :
    MathCalculations.calculateDerivative defaultFuns "x" 0 = ⟨JNum.fin 1, none⟩ := by
  have h := (derivative_forward_difference defaultFuns "x" 0 (1 / 10000)).1
    (JNum.fin (1 / 10000)) (JNum.fin 0) (by decide) (by decide)
  rw [h]
  decide

/-- A kept sample records the evenly spaced abscissa of its index and a
finite value. -/
theorem sampleAt_eq_some (MF : MathFuns) (e : String) (xMin xMax : ℚ)
    (steps i : ℕ) (p : MathParser.Point)
    (hsome : sampleAt MF e xMin xMax steps i = some p) :
    p.x = xMin + (i : ℚ) * ((xMax - xMin) / (steps : ℚ)) ∧ p.y.isFin = true := by
  simp only [sampleAt] at hsome
  cases hev : MathParser.evaluate MF e (xMin + (i : ℚ) * ((xMax - xMin) / (steps : ℚ))) with
  | ok y =>
    rw [hev] at hsome
    by_cases hf : y.isFin
    · simp only [hf, if_true] at hsome
      rw [← Option.some.inj hsome]
      exact ⟨rfl, hf⟩
    · simp [hf] at hsome
  | error msg =>
    rw [hev] at hsome
    simp at hsome

unseal Rat.add Rat.mul Rat.sub Rat.inv in
/-- C7 counterexample: with `xMin = 1 > xMax = 0` the samples come out in
decreasing x order, so the claim's unconditional ascending-order part
fails. -/
theorem generatePoints_order_cex :
    MathParser.generatePoints defaultFuns "x" 1 0 1 =
      [⟨1, JNum.fin 1⟩, ⟨0, JNum.fin 0⟩] ∧
    ¬ (MathParser.generatePoints defaultFuns "x" 1 0 1).Pairwise
        (fun p q => p.x < q.x) := by
  exact ⟨by decide, by decide⟩

unseal Rat.add Rat.mul Rat.sub Rat.inv in
/-- C7 (amended): `generatePoints` evaluates at the `stepCount + 1` evenly
spaced points inclusive of both bounds, keeps exactly the samples whose
evaluation succeeds with a finite value, and the kept samples are in
strictly increasing x order whenever `xMin < xMax`; in particular the
`1/x` sampling over `[-1, 1]` with 10 steps contains no sample at
`x = 0`. -/
theorem generatePoints_contract (MF : MathFuns) (e : String) (xMin xMax : ℚ)
    (steps : ℕ) :
    MathParser.generatePoints MF e xMin xMax steps =
      (List.range (steps + 1)).filterMap (sampleAt MF e xMin xMax steps) ∧
    (xMin < xMax →
      (MathParser.generatePoints MF e xMin xMax steps).Pairwise
        (fun p q => p.x < q.x)) ∧
    (∀ p ∈ MathParser.generatePoints defaultFuns "1/x" (-1) 1 10, p.x ≠ 0) := by
  refine ⟨generatePoints_eq_filterMap MF e xMin xMax steps, ?_, ?_⟩
  · intro hx
    rw [generatePoints_eq_filterMap]
    cases steps with
    | zero =>
      cases h0 : sampleAt MF e xMin xMax 0 0 <;>
        simp [List.range_succ, h0]
    | succ st =>
      refine List.Pairwise.filterMap (sampleAt MF e xMin xMax (st + 1)) ?_
        (List.pairwise_lt_range (st + 1 + 1))
      intro i j hij p hp q hq
      obtain ⟨hpx, _⟩ := sampleAt_eq_some MF e xMin xMax (st + 1) i p (Option.mem_def.mp hp)
      obtain ⟨hqx, _⟩ := sampleAt_eq_some MF e xMin xMax (st + 1) j q (Option.mem_def.mp hq)
      rw [hpx, hqx]
      have hstep : 0 < (xMax - xMin) / ((st + 1 : ℕ) : ℚ) := by
        apply div_pos (sub_pos.mpr hx)
        exact_mod_cast Nat.succ_pos st
      have hij' : (i : ℚ) < (j : ℚ) := by exact_mod_cast hij
      have := mul_lt_mul_of_pos_right hij' hstep
      linarith
  · decide

unseal Rat.add Rat.mul Rat.sub Rat.inv in
/-- Witness for C7 (amended): sampling `x` over `[0, 1]` with 2 steps. -/
theorem generatePoints_contract_witness :
    MathParser.generatePoints defaultFuns "x" 0 1 2 =
      [⟨0, JNum.fin 0⟩, ⟨1 / 2, JNum.fin (1 / 2)⟩, ⟨1, JNum.fin 1⟩] ∧
    (MathParser.generatePoints defaultFuns "x" 0 1 2).Pairwise
      (fun p q => p.x < q.x) := by
  have h := generatePoints_contract defaultFuns "x" 0 1 2
  exact ⟨h.1.trans (by decide), h.2.1 (by decide)⟩

/-- A digit or a dot is not whitespace. -/
theorem isNumChar_not_whitespace (c : Char) (h : MathParser.isNumChar c = true) :
    c.isWhitespace = false := by
  by_contra h'
  have hw : c.isWhitespace = true := by
    cases hws : c.isWhitespace
    · exact absurd hws h'
    · rfl
  have : ((c = ' ' ∨ c = '\t') ∨ c = '\r') ∨ c = '\n' := by
    simpa [Char.isWhitespace, Bool.or_eq_true, decide_eq_true_eq] using hw
  rcases this with ((rfl | rfl) | rfl) | rfl <;>
    exact absurd h (by decide)

unseal Rat.add Rat.mul Rat.sub Rat.inv in
/-- C8 counterexample: the run `1.2.3`, which contains two decimal points,
is accepted by `tokenize` as a single Number token rather than rejected. -/
theorem tokenize_multi_dot_accepted_cex :
    MathParser.tokenize "1.2.3" =
      .ok [⟨TokType.NUMBER, "1.2.3", 0⟩, ⟨TokType.EOF, "", 5⟩] := by
  decide

/-- C8 (amended): a maximal nonempty run of digits and decimal points is
always lexed as one Number token, no matter how many decimal points it
contains; only the lone `.` is a lexical error. -/
theorem tokenize_digit_dot_runs :
    (∀ s : String, s ≠ "" → s ≠ "." → (∀ c ∈ s.data, MathParser.isNumChar c = true) →
      MathParser.tokenize s =
        .ok [⟨TokType.NUMBER, s, 0⟩, ⟨TokType.EOF, "", s.length⟩]) ∧
    MathParser.tokenize "." = .error ("Invalid number format at position 1") := by
  constructor
  · intro s hne hdot hall
    obtain ⟨c, cs, hcs⟩ : ∃ c cs, s.data = c :: cs := by
      cases hd : s.data with
      | nil =>
        exfalso
        apply hne
        cases s with
        | mk d => simp at hd; rw [hd]
      | cons c cs => exact ⟨c, cs, rfl⟩
    have hfilter : s.data.filter (fun c => !c.isWhitespace) = s.data := by
      rw [List.filter_eq_self]
      intro c' hc'
      rw [isNumChar_not_whitespace c' (hall c' hc')]
      rfl
    have htake : (c :: cs).takeWhile MathParser.isNumChar = c :: cs := by
      rw [List.takeWhile_eq_self_iff]
      intro c' hc'
      exact hall c' (hcs ▸ hc')
    have hdrop : (c :: cs).dropWhile MathParser.isNumChar = [] := by
      rw [List.dropWhile_eq_nil_iff]
      intro c' hc'
      exact hall c' (hcs ▸ hc')
    have hmk : String.mk (c :: cs) = s := by
      cases s with
      | mk d => rw [show d = c :: cs from hcs]
    have hnc : MathParser.isNumChar c = true := hall c (hcs ▸ List.mem_cons_self c cs)
    have hlen : s.length = (c :: cs).length := by
      cases s with
      | mk d => rw [show d = c :: cs from hcs]; rfl
    unfold MathParser.tokenize
    rw [hfilter, hcs]
    show MathParser.tokenizeLoop (cs.length + 1) (c :: cs) 0 [] = _
    rw [MathParser.tokenizeLoop]
    simp only [hnc, if_true, htake, hdrop, hmk]
    rw [if_neg hdot]
    rw [MathParser.tokenizeLoop]
    simp [hlen]
  · decide

/-- Witness for C8 (amended) on the ordinary decimal `12.5`. -/
theorem tokenize_digit_dot_runs_witness :
    MathParser.tokenize "12.5" =
      .ok [⟨TokType.NUMBER, "12.5", 0⟩, ⟨TokType.EOF, "", 4⟩] := by
  have h := tokenize_digit_dot_runs.1 "12.5" (by decide) (by decide) (by decide)
  exact h.trans (by decide)

unseal Rat.add Rat.mul Rat.sub Rat.inv in
/-- C9 counterexample: `evaluate` returns the non-finite result of `0^(0-1)`
(IEEE: `Math.pow(0, -1)` is infinite) as a success, without failing. -/
theorem evaluate_nonfinite_success_cex :
    MathParser.evaluate defaultFuns "0^(0-1)" 0 = .ok JNum.nonfin ∧
    JNum.nonfin.isFin = false :=
  ⟨by decide, by decide⟩

unseal Rat.add Rat.mul Rat.sub Rat.inv in
/-- C9 (amended): the sampling operations (`generatePoints` and
`calculateDerivativePoints`) only ever emit finite values, but direct
evaluation can return a non-finite value as a success (`0^(0-1)`), and
`calculateRiemannSum` passes such a value straight into its reported
sum. -/
theorem nonfinite_policy :
    (∀ (MF : MathFuns) (e : String) (xMin xMax : ℚ) (steps : ℕ),
      ∀ p ∈ MathParser.generatePoints MF e xMin xMax steps, p.y.isFin = true) ∧
    (∀ (MF : MathFuns) (e : String) (xMin xMax : ℚ) (steps : ℕ),
      ∀ p ∈ MathCalculations.calculateDerivativePoints MF e xMin xMax steps,
        p.y.isFin = true) ∧
    MathParser.evaluate defaultFuns "0^(0-1)" 0 = .ok JNum.nonfin ∧
    (MathCalculations.calculateRiemannSum defaultFuns "0^(0-1)" 0 1 1).value =
      JNum.nonfin := by
  refine ⟨?_, mem_derivativePoints_isFin, by decide, by decide⟩
  intro MF e xMin xMax steps p hp
  rw [generatePoints_eq_filterMap] at hp
  obtain ⟨i, _, hsome⟩ := List.mem_filterMap.mp hp
  exact (sampleAt_eq_some MF e xMin xMax steps i p hsome).2

unseal Rat.add Rat.mul Rat.sub Rat.inv in
/-- Witness for C9 (amended): a concrete kept sample is finite. -/
theorem nonfinite_policy_witness :
    (⟨0, JNum.fin 0⟩ : MathParser.Point).y.isFin = true :=
  nonfinite_policy.1 defaultFuns "x" 0 1 1 ⟨0, JNum.fin 0⟩ (by decide)

unseal Rat.add Rat.mul Rat.sub Rat.inv in
/-- C10 counterexample: for `1/(x+1)` at `x0 = -1.0001` the evaluation at
`x0` succeeds but the forward-difference evaluation at `x0 + h = -1` throws,
so the derivative degrades to an error; yet `calculateTangentLine` does not
return the sentinel — it silently uses slope 0 — and `calculateNormalLine`
reports the vertical line, not its sentinel. -/
theorem tangent_internal_failure_cex :
    (MathCalculations.calculateDerivative defaultFuns "1/(x+1)"
        (-10001 / 10000)).error = some ("Unable to calculate derivative") ∧
    (MathCalculations.calculateTangentLine defaultFuns "1/(x+1)"
        (-10001 / 10000)).equation = "y = -10000.00" ∧
    (MathCalculations.calculateTangentLine defaultFuns "1/(x+1)"
        (-10001 / 10000)).point ≠ ⟨-10001 / 10000, JNum.fin 0⟩ ∧
    (MathCalculations.calculateNormalLine defaultFuns "1/(x+1)"
        (-10001 / 10000)).equation = "x = -1.00" := by
  refine ⟨by decide, by decide, by decide, by decide⟩

/-- C10 (amended): `calculateTangentLine` and `calculateNormalLine` never
throw; when the direct evaluation of the formula at `x0` fails they return
their all-zero sentinel results (with no error field), while a failure
confined to the derivative computation does not trigger the sentinel. -/
theorem tangent_normal_sentinel_on_eval_failure (MF : MathFuns) (e : String)
    (x0 : ℚ) (msg : String)
    (h : MathParser.evaluate MF e x0 = .error msg) :
    MathCalculations.calculateTangentLine MF e x0 =
      ⟨JNum.fin 0, JNum.fin 0, "y = 0", ⟨x0, JNum.fin 0⟩⟩ ∧
    MathCalculations.calculateNormalLine MF e x0 =
      ⟨JNum.fin 0, JNum.fin 0, "y = 0"⟩ := by
  constructor
  · simp [MathCalculations.calculateTangentLine, h]
  · simp [MathCalculations.calculateNormalLine, h]

unseal Rat.add Rat.mul Rat.sub Rat.inv in
/-- Witness for C10 (amended): `1/x` fails at `x0 = 0`, producing both
sentinels. -/
theorem tangent_normal_sentinel_witness :
    MathCalculations.calculateTangentLine defaultFuns "1/x" 0 =
      ⟨JNum.fin 0, JNum.fin 0, "y = 0", ⟨0, JNum.fin 0⟩⟩ ∧
    MathCalculations.calculateNormalLine defaultFuns "1/x" 0 =
      ⟨JNum.fin 0, JNum.fin 0, "y = 0"⟩ :=
  tangent_normal_sentinel_on_eval_failure defaultFuns "1/x" 0
    ("Invalid expression: 1/x. Division by zero") (by decide)
